import Mathlib

/-!
Verification of the SecureHybridTransfer wire protocol and its send/receive
state machines, shallowly embedded from `secure_file_transfer.py` and
`base.py`.  Byte streams are lists of naturals, the filesystem is an explicit
record of directories and files, and the TLS channel is modelled as the
ordered byte stream it delivers.
-/

namespace SecureHybridTransfer

/-! ## Big-endian integers (`struct.pack` / `struct.unpack` with `!B`, `!I`, `!Q`) -/

/-- Value of a big-endian byte string, as `struct.unpack` computes it. -/
def beVal (l : List Nat) : Nat := l.foldl (fun a b => a * 256 + b) 0

/-- Encoding by `struct.pack` with format `!I`: 4 bytes, big-endian. -/
def toBE4 (n : Nat) : List Nat :=
  [n / 16777216 % 256, n / 65536 % 256, n / 256 % 256, n % 256]

/-- Encoding by `struct.pack` with format `!Q`: 8 bytes, big-endian. -/
def toBE8 (n : Nat) : List Nat :=
  [n / 72057594037927936 % 256, n / 281474976710656 % 256,
   n / 1099511627776 % 256, n / 4294967296 % 256,
   n / 16777216 % 256, n / 65536 % 256, n / 256 % 256, n % 256]

/-! ## UTF-8 codec

The Python receiver decodes filenames with `bytes.decode('utf-8',
errors='replace')` and the sender encodes them with `str.encode('utf-8')`.
Names are modelled as lists of Unicode code points. -/

/-- Unicode scalar values: what a Python `str` character can be. -/
def ScalarValue (c : Nat) : Prop := c < 0xD800 ∨ (0xE000 ≤ c ∧ c < 0x110000)

instance (c : Nat) : Decidable (ScalarValue c) := by
  unfold ScalarValue; infer_instance

/-- UTF-8 encoding of one scalar value (`str.encode('utf-8')`, per character). -/
def utf8EncodeChar (c : Nat) : List Nat :=
  if c < 0x80 then [c]
  else if c < 0x800 then [0xC0 + c / 64, 0x80 + c % 64]
  else if c < 0x10000 then [0xE0 + c / 4096, 0x80 + c / 64 % 64, 0x80 + c % 64]
  else [0xF0 + c / 262144, 0x80 + c / 4096 % 64, 0x80 + c / 64 % 64, 0x80 + c % 64]

/-- UTF-8 encoding of a code-point list. -/
def utf8Encode (cps : List Nat) : List Nat := (cps.map utf8EncodeChar).flatten

/-- Is `b` a UTF-8 continuation byte? -/
def contByte (b : Nat) : Prop := 0x80 ≤ b ∧ b < 0xC0

instance (b : Nat) : Decidable (contByte b) := by
  unfold contByte; infer_instance

/-- Decode one UTF-8 sequence starting at byte `b0` with the remaining bytes
`rest`; `none` on a malformed sequence (overlong form, surrogate, bad
continuation, truncation).  Not recursive. -/
def utf8DecodeOne (b0 : Nat) (rest : List Nat) : Option (Nat × List Nat) :=
  if b0 < 0x80 then some (b0, rest)
  else if b0 < 0xC2 then none
  else if b0 < 0xE0 then
    match rest with
    | b1 :: r =>
      if contByte b1 then some ((b0 - 0xC0) * 64 + (b1 - 0x80), r) else none
    | [] => none
  else if b0 < 0xF0 then
    match rest with
    | b1 :: b2 :: r =>
      if contByte b1 ∧ contByte b2 then
        let c := (b0 - 0xE0) * 4096 + (b1 - 0x80) * 64 + (b2 - 0x80)
        if 0x800 ≤ c ∧ (c < 0xD800 ∨ 0xE000 ≤ c) then some (c, r) else none
      else none
    | _ => none
  else if b0 < 0xF5 then
    match rest with
    | b1 :: b2 :: b3 :: r =>
      if contByte b1 ∧ contByte b2 ∧ contByte b3 then
        let c := (b0 - 0xF0) * 262144 + (b1 - 0x80) * 4096 + (b2 - 0x80) * 64 + (b3 - 0x80)
        if 0x10000 ≤ c ∧ c < 0x110000 then some (c, r) else none
      else none
    | _ => none
  else none

set_option maxRecDepth 2048 in
/-- Python's `bytes.decode` with `utf-8` and `errors=replace`: each malformed
byte is replaced by U+FFFD and decoding continues. -/
def utf8Decode (l : List Nat) : List Nat :=
  match l with
  | [] => []
  | b0 :: rest =>
    match h : utf8DecodeOne b0 rest with
    | some (c, r) =>
      have hle : r.length ≤ rest.length := by
        unfold utf8DecodeOne at h
        split_ifs at h with h1 h2 h3 h4 h5
        · cases h
          exact le_refl _
        · split at h
          · split_ifs at h
            cases h
            simp only [List.length_cons]
            omega
          · cases h
        · split at h
          · dsimp only at h
            split_ifs at h
            cases h
            simp only [List.length_cons]
            omega
          · cases h
        · split at h
          · dsimp only at h
            split_ifs at h
            cases h
            simp only [List.length_cons]
            omega
          · cases h
      have : r.length < rest.length + 1 := Nat.lt_succ_of_le hle
      c :: utf8Decode r
    | none => 0xFFFD :: utf8Decode rest
termination_by l.length
decreasing_by
  · simpa using this
  · simp

/-! ## Paths and filesystem

`pathlib.Path` values are modelled as a flag for absoluteness plus the list of
path components, each component a list of Unicode code points.  The filesystem
records which directories exist and which files hold which bytes. -/

/-- A `pathlib.Path`: absolute flag and components. -/
structure PyPath where
  absolute : Bool
  parts : List (List Nat)
deriving DecidableEq, Repr

/-- Split a decoded name into its nonempty path components, as `pathlib`
normalisation does (`'a//b/'` has components `a`, `b`); `47` is `'/'`. -/
def splitComps (l : List Nat) : List (List Nat) :=
  let p := l.takeWhile (fun b => b != 47)
  match h : l.dropWhile (fun b => b != 47) with
  | [] => if p = [] then [] else [p]
  | _ :: tail =>
    have : tail.length < l.length := by
      have hle := (List.dropWhile_suffix (l := l) (fun b => b != 47)).length_le
      rw [h] at hle
      simp only [List.length_cons] at hle
      omega
    (if p = [] then [] else [p]) ++ splitComps tail
termination_by l.length

/-- Path division `p / name` for a decoded name, per `pathlib`: a name starting with a slash
is absolute and replaces `p`. -/
def pyJoin (p : PyPath) (name : List Nat) : PyPath :=
  if name.head? = some 47 then ⟨true, splitComps name⟩
  else ⟨p.absolute, p.parts ++ splitComps name⟩

/-- The `Path.parent` operation. -/
def pyParent (p : PyPath) : PyPath := ⟨p.absolute, p.parts.dropLast⟩

/-- The directories `q.mkdir(parents=True, exist_ok=True)` guarantees to
exist afterwards: `q` and every ancestor of `q`. -/
def ancestors (p : PyPath) : List PyPath :=
  (List.range (p.parts.length + 1)).map (fun k => ⟨p.absolute, p.parts.take k⟩)

/-- The filesystem: existing directories and files with their contents. -/
structure FS where
  dirs : List PyPath
  files : List (PyPath × List Nat)
deriving DecidableEq, Repr

/-- The call `q.mkdir(parents=True, exist_ok=True)`. -/
def mkdirParents (fs : FS) (q : PyPath) : FS :=
  ⟨fs.dirs ++ ancestors q, fs.files⟩

/-- Record the content written through an `open(path, 'wb')` handle. -/
def writeFile (fs : FS) (path : PyPath) (content : List Nat) : FS :=
  ⟨fs.dirs, (path, content) :: fs.files⟩

/-- Content of the most recently written file at `path`. -/
def lookupFile (fs : FS) (path : PyPath) : Option (List Nat) :=
  (fs.files.find? (fun e => e.1 = path)).map (fun e => e.2)

/-! ## Socket reads (`_recv_all` and the content loops)

The TLS connection is modelled as the ordered byte stream it will deliver
before the peer closes; `recv n` hands over up to `n` of the buffered bytes
and returns the empty string exactly when the stream is exhausted. -/

/-- A call `conn.recv(n)`: the bytes handed over and the bytes still pending. -/
def recv (s : List Nat) (n : Nat) : List Nat × List Nat :=
  (s.take n, s.drop n)

/-- The loop body of `_recv_all`: accumulate into `data` until `length`
bytes have arrived; a closed stream (`recv` returning no bytes) raises
`ConnectionError`, modelled as `none`. -/
def recvAllAux (s : List Nat) (data : List Nat) (length : Nat) :
    Option (List Nat × List Nat) :=
  if data.length < length then
    if (recv s (length - data.length)).1 = [] then none
    else recvAllAux (recv s (length - data.length)).2
      (data ++ (recv s (length - data.length)).1) length
  else some (data, s)
termination_by length - data.length
decreasing_by
  rename_i h hc
  have hpos : 0 < (recv s (length - data.length)).1.length := List.length_pos.mpr hc
  simp only [List.length_append]
  omega

/-- The function `_recv_all(conn, length)` from `secure_file_transfer.py`. -/
def recvAll (s : List Nat) (length : Nat) : Option (List Nat × List Nat) :=
  recvAllAux s [] length

/-- The saving loop at lines 130-135 and 148-153 of `secure_file_transfer.py`:
receive up to 65536 bytes at a time until `remaining` reaches zero, flushing
each chunk to the open file.  Returns the bytes flushed, and the unread rest
of the stream unless the peer closed early (`ConnectionError`). -/
def recvLoop (s : List Nat) (remaining : Nat) : List Nat × Option (List Nat) :=
  if remaining > 0 then
    if (recv s (min 65536 remaining)).1 = [] then ([], none)
    else
      ((recv s (min 65536 remaining)).1 ++
        (recvLoop (s.drop (recv s (min 65536 remaining)).1.length)
          (remaining - (recv s (min 65536 remaining)).1.length)).1,
       (recvLoop (s.drop (recv s (min 65536 remaining)).1.length)
          (remaining - (recv s (min 65536 remaining)).1.length)).2)
  else ([], some s)
termination_by remaining
decreasing_by
  all_goals
    rename_i h hc
    have hpos : 0 < (recv s (min 65536 remaining)).1.length := List.length_pos.mpr hc
    omega

/-! ## The receiver (`receive_files`) -/

/-- The exceptions a connection can raise in the model, named after the error
taxonomy: `connInterrupted` is `ConnectionError` (a `TransferInterrupted`
kind), `fileNotFound` is `FileNotFoundError` from `open` on a path whose
parent directory is missing, `isADirectory` is `IsADirectoryError`,
`handshakeFailure` is a TLS `wrap_socket` failure, `verifyRaised` is an
exception out of `base.verify_signature`. -/
inductive ConnError
  | handshakeFailure
  | connInterrupted
  | fileNotFound
  | isADirectory
  | verifyRaised
deriving DecidableEq, Repr

/-- Normal outcome of one connection: where the main file went, where the
signature went (if a signature frame was read), and the verification result
(if verification ran). -/
structure ConnOk where
  mainPath : PyPath
  sigPath : Option PyPath
  verified : Option Bool
deriving DecidableEq, Repr

/-- Lines 139-160 of `receive_files`: read the signature frame (name length,
name, size), open `out_dir / sig_filename` — with no `mkdir` for its parent,
unlike the main file — receive the signature bytes, and, when
`verify_signature` was requested, report what `base.verify_signature` says.
`filePath` is where the main file was saved, used in the outcome record. -/
def handleSigFrame (fs2 : FS) (outDir : PyPath) (verifySig : Bool)
    (verifyOutcome : Except Unit Bool) (filePath : PyPath) (s5 : List Nat) :
    FS × Except ConnError ConnOk :=
  match recvAll s5 4 with
  | none => (fs2, .error .connInterrupted)
  | some (sigNameLenRaw, s6) =>
    let sigNameLen := beVal sigNameLenRaw
    match recvAll s6 sigNameLen with
    | none => (fs2, .error .connInterrupted)
    | some (sigNameBytes, s7) =>
      let sigFilename := utf8Decode sigNameBytes
      match recvAll s7 8 with
      | none => (fs2, .error .connInterrupted)
      | some (sigSizeRaw, s8) =>
        let sigSize := beVal sigSizeRaw
        let sigPath := pyJoin outDir sigFilename
        if sigPath ∈ fs2.dirs then (fs2, .error .isADirectory)
        else if pyParent sigPath ∉ fs2.dirs then (fs2, .error .fileNotFound)
        else
          let sigLoop := recvLoop s8 sigSize
          let fs3 := writeFile fs2 sigPath sigLoop.1
          match sigLoop.2 with
          | none => (fs3, .error .connInterrupted)
          | some _ =>
            if verifySig then
              match verifyOutcome with
              | .error _ => (fs3, .error .verifyRaised)
              | .ok b => (fs3, .ok ⟨filePath, some sigPath, some b⟩)
            else (fs3, .ok ⟨filePath, some sigPath, none⟩)

/-- Lines 114-160 of `receive_files`, continuing after the `signFlag` byte has
been parsed: read the main frame, save it, and (for a truthy flag) read and
save the signature frame, optionally verifying.  `verifyOutcome` stands for
what the `base.verify_signature` collaborator would report.  The Boolean test
`hasSig` is Python's truthiness test `if sign_flag:`. -/
def handleRest (fs : FS) (outDir : PyPath) (verifySig : Bool)
    (verifyOutcome : Except Unit Bool) (signFlag : Nat) (s1 : List Nat) :
    FS × Except ConnError ConnOk :=
  let hasSig : Bool := signFlag != 0
  match recvAll s1 4 with
  | none => (fs, .error .connInterrupted)
  | some (nameLenRaw, s2) =>
    let nameLen := beVal nameLenRaw
    match recvAll s2 nameLen with
    | none => (fs, .error .connInterrupted)
    | some (nameBytes, s3) =>
      let filename := utf8Decode nameBytes
      match recvAll s3 8 with
      | none => (fs, .error .connInterrupted)
      | some (sizeRaw, s4) =>
        let size := beVal sizeRaw
        let filePath := pyJoin outDir filename
        let fs1 := mkdirParents fs (pyParent filePath)
        if filePath ∈ fs1.dirs then (fs1, .error .isADirectory)
        else if pyParent filePath ∉ fs1.dirs then (fs1, .error .fileNotFound)
        else
          let mainLoop := recvLoop s4 size
          let fs2 := writeFile fs1 filePath mainLoop.1
          match mainLoop.2 with
          | none => (fs2, .error .connInterrupted)
          | some s5 =>
            if hasSig then handleSigFrame fs2 outDir verifySig verifyOutcome filePath s5
            else (fs2, .ok ⟨filePath, none, none⟩)

/-- One accepted connection of `receive_files` after the TLS upgrade: read the
1-byte `signFlag` and continue with `handleRest`. -/
def handleConnection (fs : FS) (outDir : PyPath) (verifySig : Bool)
    (verifyOutcome : Except Unit Bool) (s : List Nat) :
    FS × Except ConnError ConnOk :=
  match recvAll s 1 with
  | none => (fs, .error .connInterrupted)
  | some (flagRaw, s1) => handleRest fs outDir verifySig verifyOutcome (beVal flagRaw) s1

/-- One inbound connection as the accept loop sees it: whether the TLS
handshake succeeds, what the verification collaborator would report, and the
byte stream the peer sends before closing. -/
structure Conn where
  handshakeOk : Bool
  verifyOutcome : Except Unit Bool
  stream : List Nat

/-- The accept loop of `receive_files` (lines 109-164): each connection is
processed inside `try ... except Exception ... finally: close()`, so an
exception is recorded for that connection and the loop moves on. -/
def serverLoop (outDir : PyPath) (verifySig : Bool) (fs : FS) :
    List Conn → FS × List (Except ConnError ConnOk)
  | [] => (fs, [])
  | c :: cs =>
    let step :=
      if c.handshakeOk then handleConnection fs outDir verifySig c.verifyOutcome c.stream
      else (fs, .error .handshakeFailure)
    let rest := serverLoop outDir verifySig step.1 cs
    (rest.1, step.2 :: rest.2)

/-- The filesystem state after line 105, `out_dir.mkdir(parents=True,
exist_ok=True)`, starting from a filesystem holding nothing of interest. -/
def initialFS (outDir : PyPath) : FS := ⟨ancestors outDir, []⟩

/-- The entry point `receive_files(host, port, out_dir, verify_signature)` applied to a finite
schedule of inbound connections. -/
def receiveFiles (outDir : PyPath) (verifySig : Bool) (conns : List Conn) :
    FS × List (Except ConnError ConnOk) :=
  serverLoop outDir verifySig (initialFS outDir) conns

/-! ## The sender (`send_file`) -/

/-- The chunks `f.read(65536)` yields over a file's content. -/
def sendChunks (l : List Nat) : List (List Nat) :=
  if l = [] then [] else l.take 65536 :: sendChunks (l.drop 65536)
termination_by l.length
decreasing_by
  rename_i hne
  have := List.length_pos.mpr hne
  simp only [List.length_drop]
  omega

/-- Observable side effects of `send_file`, in order: the signature file being
written by `base.sign_file`, the TCP/TLS connection opening, and each
`tls.sendall(...)` call with its payload. -/
inductive SendEvent
  | sigCreated
  | connOpened
  | sent (payload : List Nat)
deriving DecidableEq, Repr

/-- Failures of `send_file` before any byte goes out: `FileNotFoundError`
from the precondition check, or `subprocess.CalledProcessError` out of
`base.sign_file` (the `SigningFailed` kind). -/
inductive SendError
  | fileNotFound
  | signingFailed
deriving DecidableEq, Repr

/-- The sender `send_file(host, port, file_path, insecure, sign)` from
`secure_file_transfer.py` as a trace of events plus an outcome.  `isFile` is
the `file_path.is_file()` test; `signOk` is whether the `openssl dgst -sign`
subprocess in `base.sign_file` succeeds; `nameBytes` is the UTF-8 encoded
base filename, `content` the file's bytes, and `sigNameBytes`/`sigContent`
those of the signature file `sign_file` produces. -/
def sendFile (isFile : Bool) (sign : Bool) (signOk : Bool)
    (nameBytes content sigNameBytes sigContent : List Nat) :
    List SendEvent × Except SendError Unit :=
  if ¬isFile then ([], .error .fileNotFound)
  else if sign ∧ ¬signOk then ([], .error .signingFailed)
  else
    let signFlag : Nat := if sign then 1 else 0
    let pre := (if sign then [SendEvent.sigCreated] else []) ++ [SendEvent.connOpened]
    let mainEvents := [SendEvent.sent [signFlag], SendEvent.sent (toBE4 nameBytes.length),
      SendEvent.sent nameBytes, SendEvent.sent (toBE8 content.length)] ++
      (sendChunks content).map SendEvent.sent
    let sigEvents := if sign then
        [SendEvent.sent (toBE4 sigNameBytes.length), SendEvent.sent sigNameBytes,
         SendEvent.sent (toBE8 sigContent.length)] ++
        (sendChunks sigContent).map SendEvent.sent
      else []
    (pre ++ mainEvents ++ sigEvents, .ok ())

/-- The bytes that actually cross the wire: the `sendall` payloads in order. -/
def sentBytes (events : List SendEvent) : List Nat :=
  (events.filterMap (fun e => match e with
    | SendEvent.sent p => some p
    | _ => none)).flatten

/-- Wire layout as section 6 of the specification states it, written from the
spec text: `signFlag`, 4-byte big-endian name length, the name, 8-byte
big-endian size, the content, and the same shape again for the signature
frame exactly when the flag says one follows. -/
def wireLayout (signFlag : Nat) (nameBytes content sigNameBytes sigContent : List Nat)
    (hasSig : Bool) : List Nat :=
  [signFlag] ++ toBE4 nameBytes.length ++ nameBytes ++ toBE8 content.length ++ content ++
    (if hasSig then
      toBE4 sigNameBytes.length ++ sigNameBytes ++ toBE8 sigContent.length ++ sigContent
    else [])

/-! ## The signature service (`base.verify_signature`)

The openssl subprocesses are collaborators; `extractOk` is whether
`openssl x509 -pubkey` parses the certificate (its `check_call` raises
`CalledProcessError` on a nonzero exit), and `dgstOutcome` is the
`check_output` of `openssl dgst -verify`: either the raised
`CalledProcessError` or the decoded output text. -/

/-- The code points of the text `Verified OK`. -/
def verifiedOK : List Nat := [86, 101, 114, 105, 102, 105, 101, 100, 32, 79, 75]

/-- Does `l` start with `pat`? -/
def startsWith (pat l : List Nat) : Bool :=
  match pat, l with
  | [], _ => true
  | _ :: _, [] => false
  | p :: ps, x :: xs => p == x && startsWith ps xs

/-- Python's `pat in text` substring test on code-point lists. -/
def containsSeq (pat : List Nat) : List Nat → Bool
  | [] => startsWith pat []
  | x :: xs => startsWith pat (x :: xs) || containsSeq pat xs

/-- The verifier `base.verify_signature(file_path, cert_file, signature_path)`:
`.error ()` models an exception escaping the function, `.ok b` a returned
Boolean. -/
def verifySignature (extractOk : Bool) (dgstOutcome : Except Unit (List Nat)) :
    Except Unit Bool :=
  if ¬extractOk then .error ()
  else
    match dgstOutcome with
    | .ok output => .ok (containsSeq verifiedOK output)
    | .error _ => .ok false

theorem beVal_toBE4 (n : Nat) (h : n < 4294967296) : beVal (toBE4 n) = n := by
  simp only [beVal, toBE4, List.foldl]
  omega

theorem beVal_toBE8 (n : Nat) (h : n < 18446744073709551616) : beVal (toBE8 n) = n := by
  simp only [beVal, toBE8, List.foldl]
  omega

theorem beVal_singleton (b : Nat) : beVal [b] = b := by
  simp [beVal]

theorem toBE4_length (n : Nat) : (toBE4 n).length = 4 := rfl

theorem toBE8_length (n : Nat) : (toBE8 n).length = 8 := rfl

theorem utf8Decode_cons_some {b0 : Nat} {l : List Nat} {c : Nat} {r : List Nat}
    (h : utf8DecodeOne b0 l = some (c, r)) :
    utf8Decode (b0 :: l) = c :: utf8Decode r := by
  rw [utf8Decode]
  split
  · next c2 r2 heq =>
    rw [h] at heq
    cases heq
    rfl
  · next heq =>
    rw [h] at heq
    cases heq

theorem utf8DecodeOne_enc1 {c : Nat} (h : c < 0x80) (bs : List Nat) :
    utf8DecodeOne c bs = some (c, bs) := by
  unfold utf8DecodeOne
  rw [if_pos h]

theorem utf8DecodeOne_enc2 {c : Nat} (h1 : 0x80 ≤ c) (h2 : c < 0x800) (bs : List Nat) :
    utf8DecodeOne (0xC0 + c / 64) ((0x80 + c % 64) :: bs) = some (c, bs) := by
  unfold utf8DecodeOne
  rw [if_neg (by omega), if_neg (by omega), if_pos (by omega : 0xC0 + c / 64 < 0xE0)]
  dsimp only
  rw [if_pos (by unfold contByte; omega)]
  have hval : (0xC0 + c / 64 - 0xC0) * 64 + (0x80 + c % 64 - 0x80) = c := by omega
  rw [hval]

theorem utf8DecodeOne_enc3 {c : Nat} (h1 : 0x800 ≤ c) (h2 : c < 0x10000)
    (h3 : c < 0xD800 ∨ 0xE000 ≤ c) (bs : List Nat) :
    utf8DecodeOne (0xE0 + c / 4096) ((0x80 + c / 64 % 64) :: (0x80 + c % 64) :: bs) =
      some (c, bs) := by
  unfold utf8DecodeOne
  rw [if_neg (by omega), if_neg (by omega), if_neg (by omega),
    if_pos (by omega : 0xE0 + c / 4096 < 0xF0)]
  dsimp only
  rw [if_pos (by unfold contByte; constructor <;> omega)]
  have hval : (0xE0 + c / 4096 - 0xE0) * 4096 + (0x80 + c / 64 % 64 - 0x80) * 64 +
      (0x80 + c % 64 - 0x80) = c := by omega
  simp only [hval]
  rw [if_pos ⟨h1, h3⟩]

theorem utf8DecodeOne_enc4 {c : Nat} (h1 : 0x10000 ≤ c) (h2 : c < 0x110000) (bs : List Nat) :
    utf8DecodeOne (0xF0 + c / 262144)
      ((0x80 + c / 4096 % 64) :: (0x80 + c / 64 % 64) :: (0x80 + c % 64) :: bs) =
      some (c, bs) := by
  unfold utf8DecodeOne
  rw [if_neg (by omega), if_neg (by omega), if_neg (by omega), if_neg (by omega),
    if_pos (by omega : 0xF0 + c / 262144 < 0xF5)]
  dsimp only
  rw [if_pos (by unfold contByte; refine ⟨by omega, by omega, by omega⟩)]
  have hval : (0xF0 + c / 262144 - 0xF0) * 262144 + (0x80 + c / 4096 % 64 - 0x80) * 4096 +
      (0x80 + c / 64 % 64 - 0x80) * 64 + (0x80 + c % 64 - 0x80) = c := by omega
  simp only [hval]
  rw [if_pos ⟨h1, h2⟩]

theorem utf8Decode_encodeChar_append {c : Nat} (hc : ScalarValue c) (bs : List Nat) :
    utf8Decode (utf8EncodeChar c ++ bs) = c :: utf8Decode bs := by
  unfold utf8EncodeChar
  split_ifs with h1 h2 h3
  · simpa using utf8Decode_cons_some (utf8DecodeOne_enc1 h1 bs)
  · simpa using utf8Decode_cons_some (utf8DecodeOne_enc2 (by omega) h2 bs)
  · have h3' : c < 0xD800 ∨ 0xE000 ≤ c := by
      rcases hc with h | ⟨ha, hb⟩
      · exact Or.inl h
      · exact Or.inr ha
    simpa using utf8Decode_cons_some (utf8DecodeOne_enc3 (by omega) h3 h3' bs)
  · have h4 : c < 0x110000 := by
      rcases hc with h | ⟨ha, hb⟩
      · omega
      · exact hb
    simpa using utf8Decode_cons_some (utf8DecodeOne_enc4 (by omega) h4 bs)

theorem utf8Decode_encode_append {cps : List Nat} (h : ∀ c ∈ cps, ScalarValue c)
    (bs : List Nat) : utf8Decode (utf8Encode cps ++ bs) = cps ++ utf8Decode bs := by
  induction cps with
  | nil => simp [utf8Encode]
  | cons c t ih =>
    have hc : ScalarValue c := h c (List.mem_cons_self c t)
    have ht : ∀ x ∈ t, ScalarValue x := fun x hx => h x (List.mem_cons_of_mem c hx)
    simp only [utf8Encode, List.map_cons, List.flatten_cons, List.append_assoc]
    rw [utf8Decode_encodeChar_append hc]
    simp only [utf8Encode] at ih
    rw [ih ht]
    rfl

theorem utf8Decode_encode {cps : List Nat} (h : ∀ c ∈ cps, ScalarValue c) :
    utf8Decode (utf8Encode cps) = cps := by
  have := utf8Decode_encode_append h []
  simpa [utf8Decode] using this

theorem self_mem_ancestors (p : PyPath) : p ∈ ancestors p := by
  unfold ancestors
  refine List.mem_map.mpr ⟨p.parts.length, ?_, ?_⟩
  · exact List.mem_range.mpr (Nat.lt_succ_self _)
  · simp

theorem mem_ancestors_parts_length {q p : PyPath} (h : q ∈ ancestors p) :
    q.parts.length ≤ p.parts.length := by
  unfold ancestors at h
  rcases List.mem_map.mp h with ⟨k, _, hk⟩
  subst hk
  simp only [List.length_take]
  omega

theorem recvAllAux_spec (s data : List Nat) (n : Nat) :
    recvAllAux s data n =
      if n ≤ data.length + s.length then
        some (data ++ s.take (n - data.length), s.drop (n - data.length))
      else none := by
  by_cases h1 : data.length < n
  · by_cases hs : s = []
    · subst hs
      rw [recvAllAux.eq_def]
      rw [if_pos h1]
      simp only [recv, List.take_nil]
      simp only [if_true]
      rw [if_neg (by simp only [List.length_nil]; omega)]
    · have hcne : s.take (n - data.length) ≠ [] := by
        intro hemp
        have := congrArg List.length hemp
        simp only [List.length_take, List.length_nil] at this
        have hsl : 0 < s.length := List.length_pos.mpr hs
        omega
      rw [recvAllAux.eq_def]
      rw [if_pos h1]
      simp only [recv]
      rw [if_neg hcne]
      by_cases h2 : n ≤ data.length + s.length
      · have hchl : (data ++ s.take (n - data.length)).length = n := by
          simp only [List.length_append, List.length_take]
          omega
        rw [recvAllAux.eq_def]
        rw [if_neg (by omega)]
        rw [if_pos h2]
      · have htk : s.take (n - data.length) = s := List.take_of_length_le (by omega)
        have hdr : s.drop (n - data.length) = [] := List.drop_eq_nil_of_le (by omega)
        rw [htk, hdr]
        rw [recvAllAux.eq_def]
        rw [if_pos (by simp only [List.length_append]; omega)]
        simp only [recv, List.take_nil]
        simp only [if_true]
        rw [if_neg h2]
  · rw [recvAllAux.eq_def]
    rw [if_neg (by omega), if_pos (by omega)]
    have hz : n - data.length = 0 := by omega
    rw [hz]
    simp

theorem recvAll_spec (s : List Nat) (n : Nat) :
    recvAll s n =
      if n ≤ s.length then some (s.take n, s.drop n) else none := by
  unfold recvAll
  rw [recvAllAux_spec]
  simp

/-- Reading a full prefix: `_recv_all` consumes exactly the framed bytes. -/
theorem recvAll_append (a b : List Nat) : recvAll (a ++ b) a.length = some (a, b) := by
  rw [recvAll_spec]
  rw [if_pos (by simp)]
  simp

theorem recvLoop_exact (rem : Nat) (s : List Nat) (h : rem ≤ s.length) :
    recvLoop s rem = (s.take rem, some (s.drop rem)) := by
  induction rem using Nat.strong_induction_on generalizing s with
  | _ rem ih =>
    rw [recvLoop.eq_def]
    by_cases h0 : rem > 0
    · rw [if_pos h0]
      simp only [recv]
      have hcne : s.take (min 65536 rem) ≠ [] := by
        intro hemp
        have := congrArg List.length hemp
        simp only [List.length_take, List.length_nil] at this
        omega
      rw [if_neg hcne]
      have hck : (s.take (min 65536 rem)).length = min 65536 rem := by
        simp only [List.length_take]
        omega
      rw [hck]
      rw [ih (rem - min 65536 rem) (by omega) (s.drop (min 65536 rem))
        (by simp only [List.length_drop]; omega)]
      simp only [Prod.mk.injEq]
      constructor
      · have hsum : rem = min 65536 rem + (rem - min 65536 rem) := by omega
        conv_rhs => rw [hsum]
        rw [List.take_add]
      · rw [List.drop_drop]
        have hsum : min 65536 rem + (rem - min 65536 rem) = rem := by omega
        rw [hsum]
    · rw [if_neg h0]
      have hz : rem = 0 := by omega
      subst hz
      simp

theorem recvLoop_short (rem : Nat) (s : List Nat) (h : s.length < rem) :
    recvLoop s rem = (s, none) := by
  induction rem using Nat.strong_induction_on generalizing s with
  | _ rem ih =>
    rw [recvLoop.eq_def]
    rw [if_pos (by omega)]
    simp only [recv]
    by_cases hs : s = []
    · subst hs
      simp only [List.take_nil]
      simp only [if_true]
    · have hcne : s.take (min 65536 rem) ≠ [] := by
        intro hemp
        have := congrArg List.length hemp
        simp only [List.length_take, List.length_nil] at this
        have := List.length_pos.mpr hs
        omega
      rw [if_neg hcne]
      have hck : (s.take (min 65536 rem)).length = min (min 65536 rem) s.length := by
        simp only [List.length_take]
      rw [hck]
      rw [ih (rem - min (min 65536 rem) s.length) (by have := List.length_pos.mpr hs; omega)
        (s.drop (min (min 65536 rem) s.length))
        (by simp only [List.length_drop]; omega)]
      simp only [Prod.mk.injEq, and_true]
      have hdd : s.drop (min (min 65536 rem) s.length) = s.drop (min 65536 rem) := by
        rcases le_total (min 65536 rem) s.length with hle | hge
        · rw [min_eq_left hle]
        · rw [min_eq_right hge, List.drop_length, List.drop_eq_nil_of_le hge]
      rw [hdd]
      exact List.take_append_drop _ s

theorem sendChunks_flatten (l : List Nat) : (sendChunks l).flatten = l := by
  generalize hn : l.length = n
  induction n using Nat.strong_induction_on generalizing l with
  | _ n ih =>
    rw [sendChunks.eq_def]
    by_cases he : l = []
    · subst he
      simp
    · rw [if_neg he]
      simp only [List.flatten_cons]
      have hlen : (l.drop 65536).length < n := by
        have := List.length_pos.mpr he
        simp only [List.length_drop]
        omega
      rw [ih _ hlen _ rfl]
      exact List.take_append_drop _ l

/-! ## Helper lemmas for the claims -/

theorem recvAll_append_of (a b : List Nat) (n : Nat) (h : a.length = n) :
    recvAll (a ++ b) n = some (a, b) := by
  subst h
  exact recvAll_append a b

theorem recvAll_too_short (s : List Nat) (n : Nat) (h : s.length < n) :
    recvAll s n = none := by
  rw [recvAll_spec]
  rw [if_neg (by omega)]

theorem utf8Encode_ascii {l : List Nat} (h : ∀ c ∈ l, c < 128) : utf8Encode l = l := by
  induction l with
  | nil => rfl
  | cons c t ih =>
    have hc : c < 128 := h c (List.mem_cons_self c t)
    have ht : ∀ x ∈ t, x < 128 := fun x hx => h x (List.mem_cons_of_mem c hx)
    simp only [utf8Encode, List.map_cons, List.flatten_cons]
    rw [utf8EncodeChar, if_pos hc]
    simp only [utf8Encode] at ih
    rw [ih ht]
    rfl

theorem utf8Decode_ascii {l : List Nat} (h : ∀ c ∈ l, c < 128) : utf8Decode l = l := by
  have hv : ∀ c ∈ l, ScalarValue c := fun c hc => Or.inl (by have := h c hc; omega)
  have := utf8Decode_encode hv
  rw [utf8Encode_ascii h] at this
  exact this

theorem utf8Decode_ne_nil {l : List Nat} (h : l ≠ []) : utf8Decode l ≠ [] := by
  cases l with
  | nil => exact absurd rfl h
  | cons b0 rest =>
    rw [utf8Decode]
    split
    · simp
    · simp

theorem splitComps_no47 {l : List Nat} (h47 : (47 : Nat) ∉ l) (hne : l ≠ []) :
    splitComps l = [l] := by
  have htw : l.takeWhile (fun b => b != 47) = l := by
    induction l with
    | nil => rfl
    | cons x xs ih =>
      have hx : x ≠ 47 := fun he => h47 (he ▸ List.mem_cons_self x xs)
      rw [List.takeWhile_cons_of_pos (by simpa using hx)]
      by_cases hxe : xs = []
      · subst hxe
        rfl
      · rw [ih (fun hm => h47 (List.mem_cons_of_mem x hm)) hxe]
  have hdw : l.dropWhile (fun b => b != 47) = [] := by
    rw [List.dropWhile_eq_nil_iff]
    intro x hx
    simp only [bne_iff_ne, ne_eq]
    intro he
    exact h47 (he ▸ hx)
  rw [splitComps.eq_def]
  split
  · next heq =>
    simp only
    rw [htw, if_neg hne]
  · next b tail heq =>
    rw [hdw] at heq
    cases heq

theorem takeWhile_append47 {d : List Nat} (h47 : (47 : Nat) ∉ d) (b : List Nat) :
    (d ++ 47 :: b).takeWhile (fun x => x != 47) = d := by
  induction d with
  | nil => simp [List.takeWhile_cons]
  | cons x xs ih =>
    have hx : x ≠ 47 := fun he => h47 (he ▸ List.mem_cons_self x xs)
    simp only [List.cons_append]
    rw [List.takeWhile_cons_of_pos (by simpa using hx)]
    rw [ih (fun hm => h47 (List.mem_cons_of_mem x hm))]

theorem dropWhile_append47 {d : List Nat} (h47 : (47 : Nat) ∉ d) (b : List Nat) :
    (d ++ 47 :: b).dropWhile (fun x => x != 47) = 47 :: b := by
  induction d with
  | nil => simp [List.dropWhile_cons]
  | cons x xs ih =>
    have hx : x ≠ 47 := fun he => h47 (he ▸ List.mem_cons_self x xs)
    simp only [List.cons_append]
    rw [List.dropWhile_cons_of_pos (by simpa using hx)]
    rw [ih (fun hm => h47 (List.mem_cons_of_mem x hm))]

theorem splitComps_two {d b : List Nat} (hd47 : (47 : Nat) ∉ d) (hdne : d ≠ [])
    (hb47 : (47 : Nat) ∉ b) (hbne : b ≠ []) :
    splitComps (d ++ 47 :: b) = [d, b] := by
  rw [splitComps.eq_def]
  split
  · next heq =>
    rw [dropWhile_append47 hd47] at heq
    cases heq
  · next x tail heq =>
    rw [dropWhile_append47 hd47] at heq
    cases heq
    simp only
    rw [takeWhile_append47 hd47, if_neg hdne, splitComps_no47 hb47 hbne]
    rfl

theorem not_mem_initial_dirs (outDir : PyPath) (extra : List Nat) :
    (⟨outDir.absolute, outDir.parts ++ [extra]⟩ : PyPath) ∉
      (mkdirParents (initialFS outDir) outDir).dirs := by
  intro hmem
  simp only [mkdirParents, initialFS, List.mem_append] at hmem
  rcases hmem with h | h <;>
    · have := mem_ancestors_parts_length h
      simp only [List.length_append, List.length_cons, List.length_nil] at this
      omega

theorem sentBytes_append (a b : List SendEvent) :
    sentBytes (a ++ b) = sentBytes a ++ sentBytes b := by
  simp [sentBytes, List.filterMap_append]

theorem sentBytes_chunks (l : List Nat) :
    sentBytes ((sendChunks l).map SendEvent.sent) = l := by
  rw [sentBytes, List.filterMap_map]
  have : (fun e => match e with
      | SendEvent.sent p => some p
      | _ => none) ∘ SendEvent.sent = some := rfl
  rw [this, List.filterMap_some]
  exact sendChunks_flatten l

theorem sentBytes_nil : sentBytes [] = [] := rfl

theorem sentBytes_cons_sent (p : List Nat) (evs : List SendEvent) :
    sentBytes (SendEvent.sent p :: evs) = p ++ sentBytes evs := by
  simp [sentBytes]

theorem sentBytes_cons_sig (evs : List SendEvent) :
    sentBytes (SendEvent.sigCreated :: evs) = sentBytes evs := by
  simp [sentBytes, List.filterMap_cons]

theorem sentBytes_cons_conn (evs : List SendEvent) :
    sentBytes (SendEvent.connOpened :: evs) = sentBytes evs := by
  simp [sentBytes, List.filterMap_cons]

theorem sentBytes_sendFile (sign : Bool) (nb c snb sc : List Nat) :
    sentBytes (sendFile true sign true nb c snb sc).1 =
      wireLayout (if sign then 1 else 0) nb c snb sc sign := by
  cases sign <;>
    simp [sendFile, wireLayout, sentBytes_append, sentBytes_cons_sent, sentBytes_cons_sig,
      sentBytes_cons_conn, sentBytes_nil, sentBytes_chunks]

theorem recvLoop_append (a b : List Nat) : recvLoop (a ++ b) a.length = (a, some b) := by
  rw [recvLoop_exact _ _ (by simp)]
  rw [List.take_left, List.drop_left]

theorem head_ne_47 {l : List Nat} (h47 : (47 : Nat) ∉ l) : l.head? ≠ some 47 := by
  cases l with
  | nil => simp
  | cons x t =>
    simp only [List.head?_cons, ne_eq, Option.some.injEq]
    intro he
    exact h47 (he ▸ List.mem_cons_self x t)

theorem pyJoin_single {outDir : PyPath} {name : List Nat} (h47 : (47 : Nat) ∉ name)
    (hne : name ≠ []) :
    pyJoin outDir name = ⟨outDir.absolute, outDir.parts ++ [name]⟩ := by
  unfold pyJoin
  rw [if_neg (head_ne_47 h47), splitComps_no47 h47 hne]

theorem pyParent_concat (outDir : PyPath) (name : List Nat) :
    pyParent ⟨outDir.absolute, outDir.parts ++ [name]⟩ = outDir := by
  unfold pyParent
  simp only
  rw [List.dropLast_concat]

theorem parent_mem_mkdirParents (fs : FS) (outDir : PyPath) :
    outDir ∈ (mkdirParents fs outDir).dirs :=
  List.mem_append.mpr (Or.inr (self_mem_ancestors outDir))

theorem handleRest_walk (fs : FS) (outDir : PyPath) (v : Bool) (vo : Except Unit Bool)
    (flag : Nat) (nb payload rest : List Nat)
    (hnb : nb.length < 4294967296) (hpl : payload.length < 18446744073709551616)
    (h47 : (47 : Nat) ∉ utf8Decode nb) (hne : nb ≠ [])
    (hdir : (⟨outDir.absolute, outDir.parts ++ [utf8Decode nb]⟩ : PyPath) ∉
      (mkdirParents fs outDir).dirs) :
    handleRest fs outDir v vo flag
        (toBE4 nb.length ++ (nb ++ (toBE8 payload.length ++ (payload ++ rest)))) =
      if flag != 0 then
        handleSigFrame
          (writeFile (mkdirParents fs outDir)
            ⟨outDir.absolute, outDir.parts ++ [utf8Decode nb]⟩ payload)
          outDir v vo ⟨outDir.absolute, outDir.parts ++ [utf8Decode nb]⟩ rest
      else
        (writeFile (mkdirParents fs outDir)
          ⟨outDir.absolute, outDir.parts ++ [utf8Decode nb]⟩ payload,
         Except.ok ⟨⟨outDir.absolute, outDir.parts ++ [utf8Decode nb]⟩, none, none⟩) := by
  have hdecne : utf8Decode nb ≠ [] := utf8Decode_ne_nil hne
  unfold handleRest
  rw [recvAll_append_of (toBE4 nb.length) _ 4 rfl]
  dsimp only
  rw [beVal_toBE4 _ hnb]
  rw [recvAll_append]
  dsimp only
  rw [recvAll_append_of (toBE8 payload.length) _ 8 rfl]
  dsimp only
  rw [beVal_toBE8 _ hpl]
  rw [pyJoin_single h47 hdecne, pyParent_concat]
  rw [if_neg hdir]
  rw [if_neg (not_not_intro (parent_mem_mkdirParents fs outDir))]
  rw [recvLoop_append]

theorem handleSigFrame_ok (fs2 : FS) (outDir : PyPath) (v : Bool)
    (vo : Except Unit Bool) (filePath : PyPath) (snb sigContent rest : List Nat)
    (hsnb : snb.length < 4294967296) (hsc : sigContent.length < 18446744073709551616)
    (h47 : (47 : Nat) ∉ utf8Decode snb) (hne : snb ≠ [])
    (hdir : (⟨outDir.absolute, outDir.parts ++ [utf8Decode snb]⟩ : PyPath) ∉ fs2.dirs)
    (hpar : outDir ∈ fs2.dirs) :
    handleSigFrame fs2 outDir v vo filePath
        (toBE4 snb.length ++ (snb ++ (toBE8 sigContent.length ++ (sigContent ++ rest)))) =
      (writeFile fs2 ⟨outDir.absolute, outDir.parts ++ [utf8Decode snb]⟩ sigContent,
       if v then
         match vo with
         | Except.error _ => Except.error ConnError.verifyRaised
         | Except.ok b =>
           Except.ok ⟨filePath, some ⟨outDir.absolute, outDir.parts ++ [utf8Decode snb]⟩,
             some b⟩
       else
         Except.ok ⟨filePath, some ⟨outDir.absolute, outDir.parts ++ [utf8Decode snb]⟩,
           none⟩) := by
  have hdecne : utf8Decode snb ≠ [] := utf8Decode_ne_nil hne
  unfold handleSigFrame
  rw [recvAll_append_of (toBE4 snb.length) _ 4 rfl]
  dsimp only
  rw [beVal_toBE4 _ hsnb]
  rw [recvAll_append]
  dsimp only
  rw [recvAll_append_of (toBE8 sigContent.length) _ 8 rfl]
  dsimp only
  rw [beVal_toBE8 _ hsc]
  rw [pyJoin_single h47 hdecne, pyParent_concat]
  rw [if_neg hdir]
  rw [if_neg (not_not_intro hpar)]
  rw [recvLoop_append]
  dsimp only
  cases v <;> cases vo <;> rfl

theorem handleSigFrame_openFail (fs2 : FS) (outDir : PyPath) (v : Bool)
    (vo : Except Unit Bool) (filePath : PyPath) (snb : List Nat) (sigSize : Nat)
    (junk : List Nat) (hsnb : snb.length < 4294967296)
    (hdir : pyJoin outDir (utf8Decode snb) ∉ fs2.dirs)
    (hpar : pyParent (pyJoin outDir (utf8Decode snb)) ∉ fs2.dirs) :
    handleSigFrame fs2 outDir v vo filePath
        (toBE4 snb.length ++ (snb ++ (toBE8 sigSize ++ junk))) =
      (fs2, Except.error ConnError.fileNotFound) := by
  unfold handleSigFrame
  rw [recvAll_append_of (toBE4 snb.length) _ 4 rfl]
  dsimp only
  rw [beVal_toBE4 _ hsnb]
  rw [recvAll_append]
  dsimp only
  rw [recvAll_append_of (toBE8 sigSize) _ 8 rfl]
  dsimp only
  rw [if_neg hdir]
  rw [if_pos hpar]

theorem recvAll_cons1 (b : Nat) (t : List Nat) : recvAll (b :: t) 1 = some ([b], t) := by
  simpa using recvAll_append_of [b] t 1 rfl

theorem utf8Decode_nil : utf8Decode [] = [] := by
  rw [utf8Decode]

theorem not_mem_initial_dirs_longer (outDir : PyPath) (q : PyPath)
    (h : outDir.parts.length < q.parts.length) :
    q ∉ (mkdirParents (initialFS outDir) outDir).dirs := by
  intro hmem
  simp only [mkdirParents, initialFS, List.mem_append] at hmem
  rcases hmem with hm | hm <;>
    · have := mem_ancestors_parts_length hm
      omega

theorem head_ne_47_left {d : List Nat} (hd47 : (47 : Nat) ∉ d) (hdne : d ≠ [])
    (b : List Nat) : (d ++ 47 :: b).head? ≠ some 47 := by
  cases d with
  | nil => exact absurd rfl hdne
  | cons x t =>
    simp only [List.cons_append, List.head?_cons, ne_eq, Option.some.injEq]
    intro he
    exact hd47 (he ▸ List.mem_cons_self x t)

theorem pyJoin_two {outDir : PyPath} {d b : List Nat} (hd47 : (47 : Nat) ∉ d)
    (hdne : d ≠ []) (hb47 : (47 : Nat) ∉ b) (hbne : b ≠ []) :
    pyJoin outDir (d ++ 47 :: b) = ⟨outDir.absolute, outDir.parts ++ [d, b]⟩ := by
  unfold pyJoin
  rw [if_neg (head_ne_47_left hd47 hdne b), splitComps_two hd47 hdne hb47 hbne]

theorem pyParent_two (outDir : PyPath) (d b : List Nat) :
    pyParent ⟨outDir.absolute, outDir.parts ++ [d, b]⟩ =
      ⟨outDir.absolute, outDir.parts ++ [d]⟩ := by
  unfold pyParent
  simp only
  rw [show outDir.parts ++ [d, b] = (outDir.parts ++ [d]) ++ [b] by simp]
  rw [List.dropLast_concat]

theorem handleRest_flag_pos (fs : FS) (outDir : PyPath) (v : Bool)
    (vo : Except Unit Bool) (f : Nat) (hf : f ≠ 0) (s : List Nat) :
    handleRest fs outDir v vo f s = handleRest fs outDir v vo 1 s := by
  unfold handleRest
  have h1 : (f != 0) = true := by simpa using hf
  have h2 : ((1 : Nat) != 0) = true := rfl
  simp only [h1, h2]

/-! ## The claims -/

/-- Claim C9: for every non-negative length `n`, `_recv_all(conn, n)` either
returns a byte string of exactly `n` bytes or raises a connection-interrupted
error; it never returns a byte string shorter than `n`. -/
theorem claim9_recvAll_exact (s : List Nat) (n : Nat) :
    recvAll s n = none ∨ ∃ d r, recvAll s n = some (d, r) ∧ d.length = n := by
  by_cases h : n ≤ s.length
  · right
    refine ⟨s.take n, s.drop n, ?_, ?_⟩
    · rw [recvAll_spec, if_pos h]
    · simp only [List.length_take]
      omega
  · left
    rw [recvAll_spec, if_neg h]

/-- Claim C8: the accept loop of `receive_files` is never terminated by an
error on one connection: every scheduled connection produces exactly one
logged report (errors included), and after any connection, failed or not, the
loop goes on to process the remaining connections from the resulting state. -/
theorem claim8_loop_contained (outDir : PyPath) (v : Bool) (fs : FS)
    (conns : List Conn) :
    (serverLoop outDir v fs conns).2.length = conns.length ∧
    (∀ (c : Conn) (cs : List Conn),
      (serverLoop outDir v fs (c :: cs)).2 =
        (if c.handshakeOk then handleConnection fs outDir v c.verifyOutcome c.stream
         else (fs, Except.error ConnError.handshakeFailure)).2 ::
        (serverLoop outDir v
          (if c.handshakeOk then handleConnection fs outDir v c.verifyOutcome c.stream
           else (fs, Except.error ConnError.handshakeFailure)).1 cs).2) := by
  constructor
  · induction conns generalizing fs with
    | nil => rfl
    | cons c cs ih =>
      simp only [serverLoop, List.length_cons]
      rw [ih]
  · intro c cs
    rfl

/-- Claim C6: when `file_path` is not a regular file, `send_file` fails with
`FileNotFoundError` before opening any connection and before any side effect:
the event trace is empty (no signature created, no socket opened). -/
theorem claim6_fileNotFound (sign signOk : Bool) (nb c snb sc : List Nat) :
    sendFile false sign signOk nb c snb sc =
      ([], Except.error SendError.fileNotFound) := by
  simp [sendFile]

/-- Claim C7: with `sign = true`, a signing failure aborts the whole send with
an empty event trace (no bytes transmitted), and on the success path the very
first wire byte is the `signFlag` 1, so no `signFlag 0` envelope ever goes out
in place of a requested signed transfer. -/
theorem claim7_sign_fails_closed (nb c snb sc : List Nat) :
    sendFile true true false nb c snb sc =
      ([], Except.error SendError.signingFailed) ∧
    (sentBytes (sendFile true true true nb c snb sc).1).head? = some 1 := by
  constructor
  · simp [sendFile]
  · rw [sentBytes_sendFile]
    simp [wireLayout]

/-- Claim C5: the byte sequence the sender writes is exactly the documented
wire layout: 1-byte `signFlag`, 4-byte big-endian name length, UTF-8 name,
8-byte big-endian size, payload, and, when the flag is 1, a second frame of
the same shape for the signature file. -/
theorem claim5_wire_layout (sign : Bool) (nb c snb sc : List Nat) :
    sentBytes (sendFile true sign true nb c snb sc).1 =
      wireLayout (if sign then 1 else 0) nb c snb sc sign :=
  sentBytes_sendFile sign nb c snb sc

/-- Claim C2 counterexample: a certificate-parsing failure (the
`openssl x509 -pubkey` extraction failing) makes `verify_signature` raise the
subprocess error rather than return `false`, because that `check_call` sits
outside the `try/except`. -/
theorem claim2_counterexample :
    verifySignature false (Except.ok []) = Except.error () := rfl

/-- Claim C2 as amended: when the public key extracts from the certificate,
`verify_signature` always returns a Boolean — a failed verification or a
signature-parsing failure (nonzero `openssl dgst` exit) yields `false` — but
a certificate-parsing failure raises instead of returning `false`. -/
theorem claim2_amended (d : Except Unit (List Nat)) (out : List Nat) :
    (∃ b, verifySignature true d = Except.ok b) ∧
    verifySignature true (Except.error ()) = Except.ok false ∧
    verifySignature true (Except.ok out) = Except.ok (containsSeq verifiedOK out) ∧
    verifySignature false d = Except.error () := by
  refine ⟨?_, rfl, rfl, ?_⟩
  · cases d with
    | ok o => exact ⟨containsSeq verifiedOK o, rfl⟩
    | error e => exact ⟨false, rfl⟩
  · rfl

/-- Claim C1 counterexample: a `signFlag` byte of 2 is not treated as a
protocol violation: `receive_files` proceeds to read a signature frame
exactly as if the flag were 1, saving both files and reporting success for
the connection. -/
theorem claim1_counterexample :
    (handleConnection (initialFS ⟨false, [[111]]⟩) ⟨false, [[111]]⟩ false (Except.ok true)
        [2, 0, 0, 0, 1, 97, 0, 0, 0, 0, 0, 0, 0, 1, 7,
         0, 0, 0, 1, 98, 0, 0, 0, 0, 0, 0, 0, 1, 9]).2 =
      Except.ok ⟨⟨false, [[111], [97]]⟩, some ⟨false, [[111], [98]]⟩, none⟩ := by
  have d97 : utf8Decode [97] = [97] := utf8Decode_ascii (by decide)
  have d98 : utf8Decode [98] = [98] := utf8Decode_ascii (by decide)
  have hs : ([2, 0, 0, 0, 1, 97, 0, 0, 0, 0, 0, 0, 0, 1, 7,
      0, 0, 0, 1, 98, 0, 0, 0, 0, 0, 0, 0, 1, 9] : List Nat) =
      2 :: (toBE4 [(97 : Nat)].length ++ ([97] ++ (toBE8 [(7 : Nat)].length ++ ([7] ++
        (toBE4 [(98 : Nat)].length ++ ([98] ++ (toBE8 [(9 : Nat)].length ++
          ([9] ++ [])))))))) := by rfl
  rw [hs]
  unfold handleConnection
  rw [recvAll_cons1]
  dsimp only
  rw [beVal_singleton]
  rw [handleRest_walk (initialFS ⟨false, [[111]]⟩) ⟨false, [[111]]⟩ false (Except.ok true) 2
    [97] [7] _ (by decide) (by decide) (by rw [d97]; decide) (by decide)
    (by rw [d97]; exact not_mem_initial_dirs ⟨false, [[111]]⟩ [97])]
  rw [if_pos (by decide)]
  rw [d97]
  show (handleSigFrame
      (writeFile (mkdirParents (initialFS ⟨false, [[111]]⟩) ⟨false, [[111]]⟩)
        ⟨false, [[111], [97]]⟩ [7])
      ⟨false, [[111]]⟩ false (Except.ok true) ⟨false, [[111], [97]]⟩
      (toBE4 [(98 : Nat)].length ++ ([98] ++ (toBE8 [(9 : Nat)].length ++ ([9] ++ []))))).2 =
    Except.ok ⟨⟨false, [[111], [97]]⟩, some ⟨false, [[111], [98]]⟩, none⟩
  rw [handleSigFrame_ok
    (writeFile (mkdirParents (initialFS ⟨false, [[111]]⟩) ⟨false, [[111]]⟩)
      ⟨false, [[111], [97]]⟩ [7])
    ⟨false, [[111]]⟩ false (Except.ok true) ⟨false, [[111], [97]]⟩ [98] [9] []
    (by decide) (by decide) (by rw [d98]; decide) (by decide)
    (by rw [d98]
        exact not_mem_initial_dirs ⟨false, [[111]]⟩ [98])
    (by exact parent_mem_mkdirParents (initialFS ⟨false, [[111]]⟩) ⟨false, [[111]]⟩)]
  rw [d98]
  rfl

/-- Claim C1 as amended: the receiver never rejects a `signFlag` value as a
protocol violation; any nonzero flag byte is treated exactly like 1 (a
signature frame is read), and only 0 means unsigned. -/
theorem claim1_amended_flag (fs : FS) (outDir : PyPath) (v : Bool)
    (vo : Except Unit Bool) (flag : Nat) (hf : flag ≠ 0) (rest : List Nat) :
    handleConnection fs outDir v vo (flag :: rest) =
      handleConnection fs outDir v vo (1 :: rest) := by
  unfold handleConnection
  rw [recvAll_cons1, recvAll_cons1]
  dsimp only
  rw [beVal_singleton, beVal_singleton]
  exact handleRest_flag_pos fs outDir v vo flag hf rest

/-- Witness for the amended claim C1 at `flag = 2`. -/
theorem claim1_amended_flag_witness :
    handleConnection ⟨[], []⟩ ⟨false, []⟩ false (Except.ok true) (2 :: []) =
      handleConnection ⟨[], []⟩ ⟨false, []⟩ false (Except.ok true) (1 :: []) :=
  claim1_amended_flag ⟨[], []⟩ ⟨false, []⟩ false (Except.ok true) 2 (by decide) []

/-- Claim C3: round trip, unsigned.  Feeding the byte sequence `send_file`
emits (flag 0, framed name, framed content) into the receiver's parsing
logic yields success and a file at `outDir/<name>` whose content is
byte-identical to the sent payload, for every payload (including the empty
one) and every valid UTF-8 basename. -/
theorem claim3_round_trip (outDir : PyPath) (cps payload : List Nat)
    (vo : Except Unit Bool)
    (hval : ∀ c ∈ cps, ScalarValue c) (h47 : (47 : Nat) ∉ cps) (hne : cps ≠ [])
    (hnb : (utf8Encode cps).length < 4294967296)
    (hpl : payload.length < 18446744073709551616) :
    (handleConnection (initialFS outDir) outDir false vo
        (sentBytes (sendFile true false true (utf8Encode cps) payload [] []).1)).2 =
      Except.ok ⟨⟨outDir.absolute, outDir.parts ++ [cps]⟩, none, none⟩ ∧
    lookupFile
      (handleConnection (initialFS outDir) outDir false vo
        (sentBytes (sendFile true false true (utf8Encode cps) payload [] []).1)).1
      ⟨outDir.absolute, outDir.parts ++ [cps]⟩ = some payload := by
  have hdec : utf8Decode (utf8Encode cps) = cps := utf8Decode_encode hval
  have henc_ne : utf8Encode cps ≠ [] := by
    intro he
    exact hne (by rw [← hdec, he, utf8Decode_nil])
  have hsw : sentBytes (sendFile true false true (utf8Encode cps) payload [] []).1 =
      0 :: (toBE4 (utf8Encode cps).length ++ ((utf8Encode cps) ++
        (toBE8 payload.length ++ (payload ++ [])))) := by
    rw [sentBytes_sendFile false (utf8Encode cps) payload [] []]
    simp [wireLayout]
  rw [hsw]
  unfold handleConnection
  rw [recvAll_cons1]
  dsimp only
  rw [beVal_singleton]
  rw [handleRest_walk (initialFS outDir) outDir false vo 0 (utf8Encode cps) payload []
    hnb hpl (by rw [hdec]; exact h47) henc_ne
    (by rw [hdec]; exact not_mem_initial_dirs outDir cps)]
  rw [if_neg (by decide)]
  constructor
  · dsimp only
    rw [hdec]
  · dsimp only
    rw [hdec]
    simp [lookupFile, writeFile, List.find?]

/-- Witness for claim C3: name `a`, payload of 2 bytes. -/
theorem claim3_round_trip_witness :
    (handleConnection (initialFS ⟨false, [[111]]⟩) ⟨false, [[111]]⟩ false (Except.ok true)
        (sentBytes (sendFile true false true (utf8Encode [97]) [7, 8] [] []).1)).2 =
      Except.ok ⟨⟨false, [[111], [97]]⟩, none, none⟩ ∧
    lookupFile
      (handleConnection (initialFS ⟨false, [[111]]⟩) ⟨false, [[111]]⟩ false (Except.ok true)
        (sentBytes (sendFile true false true (utf8Encode [97]) [7, 8] [] []).1)).1
      ⟨false, [[111], [97]]⟩ = some [7, 8] :=
  claim3_round_trip ⟨false, [[111]]⟩ [97] [7, 8] (Except.ok true)
    (by decide) (by decide) (by decide) (by decide) (by decide)

/-- Claim C4: a connection whose stream closes early — mid `nameLen`, mid
name, mid `mainSize`, or after declaring `mainSize = S` but delivering fewer
than `S` content bytes — makes `receive_files` surface the
connection-interrupted failure for that connection; it never completes the
parse with a silently short frame or reports success. -/
theorem claim4_truncated (fs : FS) (outDir : PyPath) (v : Bool)
    (vo : Except Unit Bool) (flag : Nat) :
    (∀ pre : List Nat, pre.length < 4 →
      (handleConnection fs outDir v vo (flag :: pre)).2 =
        Except.error ConnError.connInterrupted) ∧
    (∀ (L : Nat) (pn : List Nat), L < 4294967296 → pn.length < L →
      (handleConnection fs outDir v vo (flag :: (toBE4 L ++ pn))).2 =
        Except.error ConnError.connInterrupted) ∧
    (∀ (nb ps : List Nat), nb.length < 4294967296 → ps.length < 8 →
      (handleConnection fs outDir v vo (flag :: (toBE4 nb.length ++ (nb ++ ps)))).2 =
        Except.error ConnError.connInterrupted) ∧
    (∀ (nb delivered : List Nat) (S : Nat), nb.length < 4294967296 →
      S < 18446744073709551616 → delivered.length < S →
      (47 : Nat) ∉ utf8Decode nb → nb ≠ [] →
      (handleConnection (initialFS outDir) outDir v vo
        (flag :: (toBE4 nb.length ++ (nb ++ (toBE8 S ++ delivered))))).2 =
        Except.error ConnError.connInterrupted) := by
  refine ⟨?_, ?_, ?_, ?_⟩
  · intro pre hpre
    unfold handleConnection
    rw [recvAll_cons1]
    dsimp only
    rw [beVal_singleton]
    unfold handleRest
    rw [recvAll_too_short pre 4 (by omega)]
  · intro L pn hL hpn
    unfold handleConnection
    rw [recvAll_cons1]
    dsimp only
    rw [beVal_singleton]
    unfold handleRest
    rw [recvAll_append_of (toBE4 L) _ 4 rfl]
    dsimp only
    rw [beVal_toBE4 _ hL]
    rw [recvAll_too_short pn L hpn]
  · intro nb ps hnb hps
    unfold handleConnection
    rw [recvAll_cons1]
    dsimp only
    rw [beVal_singleton]
    unfold handleRest
    rw [recvAll_append_of (toBE4 nb.length) _ 4 rfl]
    dsimp only
    rw [beVal_toBE4 _ hnb]
    rw [recvAll_append]
    dsimp only
    rw [recvAll_too_short ps 8 hps]
  · intro nb delivered S hnb hS hshort h47 hne
    have hdecne : utf8Decode nb ≠ [] := utf8Decode_ne_nil hne
    unfold handleConnection
    rw [recvAll_cons1]
    dsimp only
    rw [beVal_singleton]
    unfold handleRest
    rw [recvAll_append_of (toBE4 nb.length) _ 4 rfl]
    dsimp only
    rw [beVal_toBE4 _ hnb]
    rw [recvAll_append]
    dsimp only
    rw [recvAll_append_of (toBE8 S) _ 8 rfl]
    dsimp only
    rw [beVal_toBE8 _ hS]
    rw [pyJoin_single h47 hdecne, pyParent_concat]
    rw [if_neg (not_mem_initial_dirs outDir (utf8Decode nb))]
    rw [if_neg (not_not_intro (parent_mem_mkdirParents (initialFS outDir) outDir))]
    rw [recvLoop_short S delivered hshort]

/-- Witness for claim C4: all four truncation shapes at concrete inputs. -/
theorem claim4_truncated_witness :
    ((handleConnection (⟨[], []⟩ : FS) ⟨false, [[111]]⟩ false (Except.ok true)
        (0 :: [1, 2])).2 = Except.error ConnError.connInterrupted) ∧
    ((handleConnection (⟨[], []⟩ : FS) ⟨false, [[111]]⟩ false (Except.ok true)
        (0 :: (toBE4 3 ++ [5]))).2 = Except.error ConnError.connInterrupted) ∧
    ((handleConnection (⟨[], []⟩ : FS) ⟨false, [[111]]⟩ false (Except.ok true)
        (0 :: (toBE4 [(97 : Nat)].length ++ ([97] ++ [1, 2, 3])))).2 =
      Except.error ConnError.connInterrupted) ∧
    ((handleConnection (initialFS ⟨false, [[111]]⟩) ⟨false, [[111]]⟩ false (Except.ok true)
        (0 :: (toBE4 [(97 : Nat)].length ++ ([97] ++ (toBE8 2 ++ [7]))))).2 =
      Except.error ConnError.connInterrupted) := by
  have h := claim4_truncated (⟨[], []⟩ : FS) ⟨false, [[111]]⟩ false (Except.ok true) 0
  have d97 : utf8Decode [97] = [97] := utf8Decode_ascii (by decide)
  exact ⟨h.1 [1, 2] (by decide), h.2.1 3 [5] (by decide) (by decide),
    h.2.2.1 [97] [1, 2, 3] (by decide) (by decide),
    (claim4_truncated (⟨[], []⟩ : FS) ⟨false, [[111]]⟩ false (Except.ok true) 0).2.2.2
      [97] [7] 2 (by decide) (by decide) (by decide) (by rw [d97]; decide) (by decide)⟩

/-- Claim C10: the receiver creates missing parent directories only for the
main file path, not for the signature path: a signature name with a directory
component that does not exist under `outDir` makes the connection fail when
opening the signature file (`FileNotFoundError`), while the already-written
main file stays persisted. -/
theorem claim10_sig_no_mkdir (outDir : PyPath) (nb payload d base junk : List Nat)
    (S : Nat) (v : Bool) (vo : Except Unit Bool)
    (hnb : nb.length < 4294967296) (hpl : payload.length < 18446744073709551616)
    (h47 : (47 : Nat) ∉ utf8Decode nb) (hne : nb ≠ [])
    (hdv : ∀ c ∈ d, ScalarValue c) (hbv : ∀ c ∈ base, ScalarValue c)
    (hd47 : (47 : Nat) ∉ d) (hdne : d ≠ [])
    (hb47 : (47 : Nat) ∉ base) (hbne : base ≠ [])
    (hsnb : (utf8Encode (d ++ 47 :: base)).length < 4294967296) :
    (handleConnection (initialFS outDir) outDir v vo
        (1 :: (toBE4 nb.length ++ (nb ++ (toBE8 payload.length ++ (payload ++
          (toBE4 (utf8Encode (d ++ 47 :: base)).length ++ ((utf8Encode (d ++ 47 :: base)) ++
            (toBE8 S ++ junk))))))))).2 =
      Except.error ConnError.fileNotFound ∧
    lookupFile
      (handleConnection (initialFS outDir) outDir v vo
        (1 :: (toBE4 nb.length ++ (nb ++ (toBE8 payload.length ++ (payload ++
          (toBE4 (utf8Encode (d ++ 47 :: base)).length ++ ((utf8Encode (d ++ 47 :: base)) ++
            (toBE8 S ++ junk))))))))).1
      ⟨outDir.absolute, outDir.parts ++ [utf8Decode nb]⟩ = some payload := by
  have hdecne : utf8Decode nb ≠ [] := utf8Decode_ne_nil hne
  have hsv : ∀ c ∈ d ++ 47 :: base, ScalarValue c := by
    intro c hc
    rcases List.mem_append.mp hc with hc | hc
    · exact hdv c hc
    · rcases List.mem_cons.mp hc with hc | hc
      · exact hc ▸ Or.inl (by omega)
      · exact hbv c hc
  have hdecs : utf8Decode (utf8Encode (d ++ 47 :: base)) = d ++ 47 :: base :=
    utf8Decode_encode hsv
  unfold handleConnection
  rw [recvAll_cons1]
  dsimp only
  rw [beVal_singleton]
  rw [handleRest_walk (initialFS outDir) outDir v vo 1 nb payload _
    hnb hpl h47 hne (not_mem_initial_dirs outDir (utf8Decode nb))]
  rw [if_pos (by decide)]
  rw [handleSigFrame_openFail _ outDir v vo _ (utf8Encode (d ++ 47 :: base)) S junk hsnb
    (by rw [hdecs, pyJoin_two hd47 hdne hb47 hbne]
        exact not_mem_initial_dirs_longer outDir _ (by simp))
    (by rw [hdecs, pyJoin_two hd47 hdne hb47 hbne, pyParent_two]
        exact not_mem_initial_dirs_longer outDir _ (by simp))]
  constructor
  · rfl
  · simp [lookupFile, writeFile, List.find?]

/-- Witness for claim C10: main file `a`, signature name `d/b.sig`-style
(`d` slash `s`), on a fresh receiver. -/
theorem claim10_sig_no_mkdir_witness :
    (handleConnection (initialFS ⟨false, [[111]]⟩) ⟨false, [[111]]⟩ false (Except.ok true)
        (1 :: (toBE4 [(97 : Nat)].length ++ ([97] ++ (toBE8 [(7 : Nat)].length ++ ([7] ++
          (toBE4 (utf8Encode ([100] ++ 47 :: [115])).length ++
            ((utf8Encode ([100] ++ 47 :: [115])) ++
            (toBE8 1 ++ [9]))))))))).2 =
      Except.error ConnError.fileNotFound ∧
    lookupFile
      (handleConnection (initialFS ⟨false, [[111]]⟩) ⟨false, [[111]]⟩ false (Except.ok true)
        (1 :: (toBE4 [(97 : Nat)].length ++ ([97] ++ (toBE8 [(7 : Nat)].length ++ ([7] ++
          (toBE4 (utf8Encode ([100] ++ 47 :: [115])).length ++
            ((utf8Encode ([100] ++ 47 :: [115])) ++
            (toBE8 1 ++ [9]))))))))).1
      ⟨false, [[111], utf8Decode [97]]⟩ = some [7] :=
  claim10_sig_no_mkdir ⟨false, [[111]]⟩ [97] [7] [100] [115] [9] 1 false (Except.ok true)
    (by decide) (by decide)
    (by rw [utf8Decode_ascii (by decide)]; decide) (by decide)
    (by decide) (by decide) (by decide) (by decide) (by decide) (by decide) (by decide)

end SecureHybridTransfer

